import Mathlib

/-!
# StockDash data-acquisition core — a shallow embedding

This file embeds the data-acquisition and identity-resolution core of the
StockDash backend (`backend/app.py`, `backend/scraper.py`,
`backend/database.py`) as executable Lean definitions and proves, or refutes,
the specified properties of that core.

Conventions of the embedding:

* Python strings are Lean `String`s; Python's regex character classes `\d`,
  `\w`, `\s` are modelled at the ASCII level (`Char.isDigit`,
  alphanumeric-or-underscore, the six ASCII whitespace characters), which is
  exact for every input the properties mention.
* Python `float` values are modelled as rationals; `float(...)` applied to a
  cleaned digits-and-dot string succeeds exactly when the string has at least
  one digit and at most one dot, which matches CPython on such strings.
* A Python function that may raise is embedded with `Except`/`Option` result
  types; an exception swallowed by a `try/except` block in the source is
  folded into the corresponding `none`/failure result.
* HTML documents reached through BeautifulSoup lookups are modelled by the
  texts of the elements those lookups return (an absent element is `none`).
-/

namespace StockDash

/-! ## Python string primitives -/

/-- Python `\s` whitespace, at the ASCII level: space, tab, LF, VT, FF, CR. -/
def isPySpace (c : Char) : Bool :=
  c = ' ' || c = '\t' || c = '\n' || c = '\x0b' || c = '\x0c' || c = '\r'

/-- Python `\w`, at the ASCII level: letters, digits and the underscore. -/
def isWordChar (c : Char) : Bool :=
  c.isAlphanum || c = '_'

/-- Python `str.lower()` (ASCII level). -/
def pyLower (s : String) : String :=
  String.mk (s.toList.map Char.toLower)

/-- Python `str.upper()` (ASCII level). -/
def pyUpper (s : String) : String :=
  String.mk (s.toList.map Char.toUpper)

/-- Drop the longest suffix of `l` all of whose characters satisfy `p`. -/
def dropTrailWhile (p : Char → Bool) (l : List Char) : List Char :=
  (l.reverse.dropWhile p).reverse

/-- Python `str.strip()`: remove leading and trailing whitespace. -/
def pyStrip (s : String) : String :=
  String.mk (dropTrailWhile isPySpace (s.toList.dropWhile isPySpace))

/-- Does the second list occur at the head of the first one? -/
def listStartsWith : List Char → List Char → Bool
  | _, [] => true
  | [], _ :: _ => false
  | a :: l, b :: m => a = b && listStartsWith l m

/-- Python substring containment `needle in hay`, on character lists. -/
def listHasSub : List Char → List Char → Bool
  | [], needle => needle.isEmpty
  | a :: t, needle => listStartsWith (a :: t) needle || listHasSub t needle

/-- Python substring containment `needle in hay`, on strings. -/
def strHasSub (hay needle : String) : Bool :=
  listHasSub hay.toList needle.toList

/-- Python `str.endswith(suffix)`. -/
def pyEndsWith (s suf : String) : Bool :=
  listStartsWith s.toList.reverse suf.toList.reverse

/-- The numeric value of a list of decimal digit characters (empty ↦ 0),
read most-significant first, as Python `int` of the digit string. -/
def digitsToNat (l : List Char) : Nat :=
  l.foldl (fun n c => 10 * n + (c.toNat - 48)) 0

/-! ## `app.py parse_price` (Text Extraction Utilities) -/

/-- The value of CPython `float(s)` on a string `s` made of digits and dots
only: defined exactly when `s` has at least one digit and at most one dot. -/
def pyFloatOfClean (l : List Char) : Option ℚ :=
  if l.all (fun c => c.isDigit || c = '.') &&
      l.count '.' ≤ 1 && !(l.filter Char.isDigit).isEmpty then
    let ip := l.takeWhile (fun c => c ≠ '.')
    let fp := (l.dropWhile (fun c => c ≠ '.')).tail
    some ((digitsToNat ip : ℚ) + (digitsToNat fp : ℚ) / (10 : ℚ) ^ fp.length)
  else
    none

/-- The dynamic argument of `parse_price`: Python `None`, an `int`/`float`
(modelled as a rational), or a `str`. -/
inductive PyVal where
  | none : PyVal
  | num : ℚ → PyVal
  | str : String → PyVal
deriving DecidableEq

/-- `app.py parse_price(value)`.  `None ↦ 0.0`; numbers pass through
`float(value)`; strings are cleaned by `re.sub(r'[^\d.]', '', str(value))`
and then parsed: `float(cleaned) if cleaned else 0.0`.  A `ValueError`
raised by `float(cleaned)` is the `Except.error` branch. -/
def parse_price : PyVal → Except Unit ℚ
  | PyVal.none => Except.ok 0
  | PyVal.num q => Except.ok q
  | PyVal.str s =>
    let cleaned := s.toList.filter (fun c => c.isDigit || c = '.')
    if cleaned.isEmpty then Except.ok 0
    else
      match pyFloatOfClean cleaned with
      | some q => Except.ok q
      | Option.none => Except.error ()

/-! ## Association lists

SQLite tables with a UNIQUE key column and Python dicts are both modelled as
association lists in insertion order; `upsertAssoc` is `INSERT OR REPLACE`
keyed on the first component, and also Python dict assignment `d[k] = v`. -/

/-- Look up the value stored under key `k`. -/
def lookupAssoc {α : Type} (t : List (String × α)) (k : String) : Option α :=
  (t.find? (fun p => p.1 == k)).map Prod.snd

/-- Replace the value stored under `k` in place, or append a new pair. -/
def upsertAssoc {α : Type} (t : List (String × α)) (k : String) (v : α) :
    List (String × α) :=
  if t.any (fun p => p.1 == k) then
    t.map (fun p => if p.1 == k then (k, v) else p)
  else
    t ++ [(k, v)]

/-! ## Holdings and the freshness cache (`database.py`, `app.py`)

`get_today_date()` is modelled by a `today : String` parameter: the spec
fixes it to the local calendar date, stable within one process run, and all
cache code compares it by string equality only. -/

/-- One row of the `holdings` table (the columns the core reads). -/
structure Holding where
  id : String
  user_id : Nat
  ticker : String
  symbol : String
deriving DecidableEq, Repr

/-- One row of the `ratios_cache`/`quarterly_cache` tables, minus the key. -/
structure CacheEntry (α : Type) where
  user_id : Nat
  data : α
  date : String
  updated_time : String
deriving DecidableEq, Repr

/-- The database state the cached-data paths touch.  `α` is the ratios
payload type and `β` the quarterly payload type (both stored as opaque JSON
text by the source; `json.loads ∘ json.dumps` is the identity here). -/
structure DB (α β : Type) where
  holdings : List Holding
  ratios_cache : List (String × CacheEntry α)
  quarterly_cache : List (String × CacheEntry β)
deriving DecidableEq, Repr

/-- `database.py find_existing_holding_by_ticker(ticker, user_id)`:
`SELECT * FROM holdings WHERE (ticker = lower(t) OR symbol = upper(t)) AND
user_id = ?`, first row wins. -/
def find_existing_holding_by_ticker {α β : Type} (db : DB α β)
    (ticker : String) (user_id : Nat) : Option Holding :=
  db.holdings.find? (fun h =>
    (h.ticker == pyLower ticker || h.symbol == pyUpper ticker) &&
      h.user_id == user_id)

/-- `database.py get_ratios_cache(holding_id)`. -/
def get_ratios_cache {α β : Type} (db : DB α β) (holding_id : String) :
    Option (CacheEntry α) :=
  lookupAssoc db.ratios_cache holding_id

/-- `database.py save_ratios_cache(...)`: `INSERT OR REPLACE` keyed on the
unique `holding_id` column. -/
def save_ratios_cache {α β : Type} (db : DB α β) (holding_id : String)
    (data : α) (cache_date updated_time : String) (user_id : Nat) : DB α β :=
  { db with ratios_cache :=
      upsertAssoc db.ratios_cache holding_id ⟨user_id, data, cache_date, updated_time⟩ }

/-- `database.py get_quarterly_cache(holding_id)`. -/
def get_quarterly_cache {α β : Type} (db : DB α β) (holding_id : String) :
    Option (CacheEntry β) :=
  lookupAssoc db.quarterly_cache holding_id

/-- `database.py save_quarterly_cache(...)`. -/
def save_quarterly_cache {α β : Type} (db : DB α β) (holding_id : String)
    (data : β) (cache_date updated_time : String) (user_id : Nat) : DB α β :=
  { db with quarterly_cache :=
      upsertAssoc db.quarterly_cache holding_id ⟨user_id, data, cache_date, updated_time⟩ }

/-- `app.py is_data_fresh(data_entry)`: falsy entry ↦ `False`, otherwise
compare the stored date with today's date.  (The `'date' not in data_entry`
guard never fires: every entry built by `get_ratios_cache` carries a date.) -/
def is_data_fresh {α : Type} (data_entry : Option (CacheEntry α))
    (today : String) : Bool :=
  match data_entry with
  | none => false
  | some e => e.date == today

/-- `app.py get_cached_ratios_by_ticker(ticker, user_id)`. -/
def get_cached_ratios_by_ticker {α β : Type} (db : DB α β) (ticker : String)
    (user_id : Nat) (today : String) : Option α :=
  match find_existing_holding_by_ticker db ticker user_id with
  | none => none
  | some h =>
    match get_ratios_cache db h.id with
    | some e => if is_data_fresh (some e) today then some e.data else none
    | none => none

/-- `app.py save_ratios_to_cache_by_ticker(ticker, ratios_data, user_id)`:
writes nothing when the user holds no position with that ticker. -/
def save_ratios_to_cache_by_ticker {α β : Type} (db : DB α β)
    (ticker : String) (ratios_data : α) (user_id : Nat)
    (today updated_time : String) : DB α β :=
  match find_existing_holding_by_ticker db ticker user_id with
  | none => db
  | some h => save_ratios_cache db h.id ratios_data today updated_time user_id

/-- `app.py get_cached_quarterly_by_ticker(ticker, user_id)`. -/
def get_cached_quarterly_by_ticker {α β : Type} (db : DB α β)
    (ticker : String) (user_id : Nat) (today : String) : Option β :=
  match find_existing_holding_by_ticker db ticker user_id with
  | none => none
  | some h =>
    match get_quarterly_cache db h.id with
    | some e => if is_data_fresh (some e) today then some e.data else none
    | none => none

/-- `app.py save_quarterly_to_cache_by_ticker(ticker, data, user_id)`. -/
def save_quarterly_to_cache_by_ticker {α β : Type} (db : DB α β)
    (ticker : String) (quarterly_data : β) (user_id : Nat)
    (today updated_time : String) : DB α β :=
  match find_existing_holding_by_ticker db ticker user_id with
  | none => db
  | some h => save_quarterly_cache db h.id quarterly_data today updated_time user_id

/-! ## Lightweight Quote Fetcher (`app.py get_kotak_price_from_url`)

The BeautifulSoup lookups are modelled by the texts they return.  `KDoc`
holds the text of the price element (the container + inner-div chain, absent
when either lookup misses), the text of the change element, and the
performance-table rows keyed by their label/value cell texts. -/

/-- One `tr` of the performance table: the text of its label `td` and of its
value `td`, each `none` when the class-matched cell is absent. -/
structure KRow where
  label : Option String
  value : Option String
deriving DecidableEq, Repr

/-- The parts of a Kotak quote page the fetcher looks at. -/
structure KDoc where
  priceText : Option String
  changeText : Option String
  rows : List KRow
deriving DecidableEq, Repr

/-- `re.sub(r'[^\d.]', '', text.strip())`: keep digits and dots only. -/
def cleanNumText (s : String) : String :=
  String.mk ((pyStrip s).toList.filter (fun c => c.isDigit || c = '.'))

/-- The previous-close row scan of `get_kotak_price_from_url` (lines
287-296): walk the rows, stop at the first one whose label cell exists and
contains `'Prev. Close'` (Python `in`, hence case-sensitive); read its value
cell reduced to digits and dots, defaulting `"0"` when that cleaning leaves
nothing; the `break` fires even when the matching row has no value cell. -/
def extract_previous_close : List KRow → Option String
  | [] => none
  | r :: rest =>
    match r.label with
    | some lbl =>
      if strHasSub lbl "Prev. Close" then
        match r.value with
        | some v =>
          let cleaned := cleanNumText v
          some (if cleaned = "" then "0" else cleaned)
        | none => none
      else extract_previous_close rest
    | none => extract_previous_close rest

/-- `re.search(r'^([+-]?[\d.]+)', s.strip())`, group 1: an optional sign
followed by a nonempty run of digits/dots, anchored at the start. -/
def parseChangeAmount (s : String) : Option String :=
  let l := (pyStrip s).toList
  let signAndRest : List Char × List Char :=
    match l with
    | c :: t => if c = '+' || c = '-' then ([c], t) else ([], l)
    | [] => ([], [])
  let run := signAndRest.2.takeWhile (fun c => c.isDigit || c = '.')
  if run.isEmpty then none else some (String.mk (signAndRest.1 ++ run))

/-- Try `\(([+-]?[\d.]+%)\)` at the head of `l`; return group 1 on match. -/
def matchPercentAt (l : List Char) : Option (List Char) :=
  match l with
  | '(' :: rest =>
    let signAndRest : List Char × List Char :=
      match rest with
      | c :: t => if c = '+' || c = '-' then ([c], t) else ([], rest)
      | [] => ([], [])
    let run := signAndRest.2.takeWhile (fun c => c.isDigit || c = '.')
    if run.isEmpty then none
    else
      match signAndRest.2.drop run.length with
      | '%' :: ')' :: _ => some (signAndRest.1 ++ run ++ ['%'])
      | _ => none
  | _ => none

/-- Leftmost match of `\(([+-]?[\d.]+%)\)` anywhere in the list. -/
def scanPercent : List Char → Option (List Char)
  | [] => none
  | c :: rest =>
    match matchPercentAt (c :: rest) with
    | some g => some g
    | none => scanPercent rest

/-- `re.search(r'\(([+-]?[\d.]+%)\)', s)`, group 1. -/
def parseChangePercent (s : String) : Option String :=
  (scanPercent s.toList).map String.mk

/-- The dict returned by a successful `get_kotak_price_from_url`. -/
structure KQuote where
  price : Option String
  previous_close : Option String
  price_change_amount : Option String
  price_change_percent : Option String
deriving DecidableEq, Repr

/-- `app.py get_kotak_price_from_url(kotak_url)`.  The outcome of the single
`requests.get` is the argument: `Except.error` is a raised network error
(caught by the bare `except`, returning `None`), `Except.ok` carries the
HTTP status code and the fetched document. -/
def get_kotak_price_from_url (resp : Except Unit (Nat × KDoc)) :
    Option KQuote :=
  match resp with
  | Except.error _ => none
  | Except.ok (status, doc) =>
    if status ≠ 200 then none
    else
      let current_price := doc.priceText.map pyStrip
      let price_change_full := doc.changeText.map pyStrip
      let previous_close := extract_previous_close doc.rows
      let amount :=
        match price_change_full with
        | some s => parseChangeAmount s
        | none => none
      let percent :=
        match price_change_full with
        | some s => parseChangePercent s
        | none => none
      some ⟨current_price, previous_close, amount, percent⟩

/-- The claim's reading of the previous-close scan, word for word from the
spec: the first row whose label contains `"Prev. Close"` *case-insensitively*
as a substring; otherwise identical to the source scan. -/
def extract_previous_close_ci (rows : List KRow) : Option String :=
  match rows.find? (fun r =>
      match r.label with
      | some lbl => strHasSub (pyLower lbl) "prev. close"
      | none => false) with
  | none => none
  | some r =>
    r.value.map (fun v =>
      let cleaned := cleanNumText v
      if cleaned = "" then "0" else cleaned)

/-- A row label cell exists and contains `'Prev. Close'` (case-sensitive). -/
def prevCloseRowPred (r : KRow) : Bool :=
  match r.label with
  | some lbl => strHasSub lbl "Prev. Close"
  | none => false

/-- The source scan, re-stated without the loop: first case-SENSITIVE
label match wins; used to prove the loop/`break` code equal to its
first-match description. -/
def extract_previous_close_first_match (rows : List KRow) : Option String :=
  match rows.find? prevCloseRowPred with
  | none => none
  | some r =>
    r.value.map (fun v =>
      let cleaned := cleanNumText v
      if cleaned = "" then "0" else cleaned)

/-! ## Identity Resolver Stage B (`app.py find_working_kotak_url`) -/

/-- One left-to-right pass of `re.sub` for the pattern `\(([^)]*)\)`
(`keepInner = true`, replacement `\1`) or `\([^)]*\)` (`keepInner = false`,
replacement empty): at each `'('` that is followed by some `')'`, the
bracketed segment is rewritten and scanning resumes after the `')'`;
a `'('` with no later `')'` is copied verbatim.  `fuel` is an upper bound on
the number of steps; every step consumes at least one character, so any
`fuel ≥ l.length` computes the full substitution (the callers pass
`l.length`), and the recursion is structural so the definition evaluates
by `rfl`/`decide`. -/
def pyParenSubAux (keepInner : Bool) : Nat → List Char → List Char
  | 0, l => l
  | _ + 1, [] => []
  | fuel + 1, c :: rest =>
    if c = '(' then
      let inner := rest.takeWhile (fun d => d ≠ ')')
      let after := rest.dropWhile (fun d => d ≠ ')')
      match after with
      | _ :: afterClose =>
        (if keepInner then inner else []) ++ pyParenSubAux keepInner fuel afterClose
      | [] => c :: pyParenSubAux keepInner fuel rest
    else
      c :: pyParenSubAux keepInner fuel rest

/-- `re.sub(r'\(([^)]*)\)', r'\1', text)` resp. `re.sub(r'\([^)]*\)', '', text)`. -/
def pyParenSub (keepInner : Bool) (l : List Char) : List Char :=
  pyParenSubAux keepInner l.length l

/-- Collapse every maximal run of characters satisfying `p` to the single
character `rep` (`prev` records whether the previous kept character came
from such a run). -/
def collapseRunsAux (p : Char → Bool) (rep : Char) : Bool → List Char → List Char
  | _, [] => []
  | prev, c :: rest =>
    if p c then
      if prev then collapseRunsAux p rep true rest
      else rep :: collapseRunsAux p rep true rest
    else
      c :: collapseRunsAux p rep false rest

/-- `re.sub(r'-+', '-', ...)` via `collapseRuns (· = '-') '-'`, and
`re.sub(r'\s+', ' ', ...)` via `collapseRuns isPySpace ' '`. -/
def collapseRuns (p : Char → Bool) (rep : Char) (l : List Char) : List Char :=
  collapseRunsAux p rep false l

/-- `app.py format_for_url(text)` (inner helper of
`find_working_kotak_url`): lowercase, unwrap parenthesised content, strip
every character that is not `\w`, `\s` or `-`, turn spaces into hyphens,
collapse hyphen runs, and strip outer hyphens. -/
def format_for_url (text : String) : String :=
  let t1 := text.toList.map Char.toLower
  let t2 := pyParenSub true t1
  let t3 := t2.filter (fun c => isWordChar c || isPySpace c || c = '-')
  let t4 := t3.map (fun c => if c = ' ' then '-' else c)
  let t5 := collapseRuns (fun c => c = '-') '-' t4
  String.mk (dropTrailWhile (fun c => c = '-') (t5.dropWhile (fun c => c = '-')))

/-- The shared preprocessing of variations 2 and 4:
`re.sub(r'\([^)]*\)', '', s).strip()` then `re.sub(r'\s+', ' ', ...)`. -/
def dropParensCollapse (s : String) : String :=
  String.mk (collapseRuns isPySpace ' ' (pyStrip (String.mk (pyParenSub false s.toList))).toList)

/-- The trailing `' Ltd'` / `' Limited'` suffix removal of variations 3/4
(`var3 = var3[:-4]` resp. `var3[:-8]`). -/
def stripLtdSuffix (s : String) : String :=
  if pyEndsWith s " Ltd" then String.mk (s.toList.take (s.toList.length - 4))
  else if pyEndsWith s " Limited" then String.mk (s.toList.take (s.toList.length - 8))
  else s

/-- `app.py create_base_url_variations(name)` (inner helper of
`find_working_kotak_url`): the four slug candidates, each later one added
only when distinct from all the computed earlier ones. -/
def create_base_url_variations (name : String) : List String :=
  let clean_name := pyStrip name
  let var1 := format_for_url clean_name
  let var2 := format_for_url (dropParensCollapse clean_name)
  let var3 := format_for_url (stripLtdSuffix clean_name)
  let var4 := format_for_url (dropParensCollapse (stripLtdSuffix clean_name))
  [var1] ++ (if var2 ≠ var1 then [var2] else [])
    ++ (if var3 ≠ var1 ∧ var3 ≠ var2 then [var3] else [])
    ++ (if var4 ≠ var1 ∧ var4 ≠ var2 ∧ var4 ≠ var3 then [var4] else [])

/-- The full Stage B candidate list of `find_working_kotak_url`:
`base_variations + ["bse-" + var for var in base_variations]`, probed in
list order. -/
def all_kotak_variations (name : String) : List String :=
  create_base_url_variations name ++
    (create_base_url_variations name).map (fun v => "bse-" ++ v)

/-! ## Company registry and the Identity Resolver (`database.py`, `app.py`) -/

/-- One row of the `companies` table.  `name` is UNIQUE; `tickers` and
`screener_urls` are the JSON-decoded column values. -/
structure Company where
  name : String
  tickers : List String
  screener_urls : List (String × String)
  kotak_url : String
deriving DecidableEq, Repr

/-- The `companies` table in rowid order. -/
abbrev Registry := List Company

/-- `database.py find_company_by_ticker(ticker)`: scan all rows, return the
first whose ticker list contains the query, compared case-insensitively. -/
def find_company_by_ticker (reg : Registry) (ticker : String) : Option Company :=
  reg.find? (fun c => (c.tickers.map pyUpper).contains (pyUpper ticker))

/-- `database.py get_or_create_company(name, tickers, screener_urls,
kotak_url)`: if a row with this exact name exists, overwrite its tickers,
URLs and kotak URL wholesale; otherwise insert a new row.  (The returned
rowid is not used by the embedded callers.) -/
def get_or_create_company (reg : Registry) (name : String)
    (tickers : List String) (screener_urls : List (String × String))
    (kotak_url : String) : Registry :=
  if reg.any (fun c => c.name == name) then
    reg.map (fun c => if c.name == name then ⟨name, tickers, screener_urls, kotak_url⟩ else c)
  else
    reg ++ [⟨name, tickers, screener_urls, kotak_url⟩]

/-- Python `s.replace(' ', '')`. -/
def removeSpaces (s : String) : String :=
  String.mk (s.toList.filter (fun c => c ≠ ' '))

/-- How one `/api/stock-price` request left the registry. -/
inductive ResolveOutcome where
  | known           -- ticker already registered; price path only
  | merged          -- name-as-ticker lookup hit: ticker appended to that row
  | created         -- Stage B ran; `get_or_create_company` with this ticker only
  | companyNotFound -- Stage A failed: 404, registry untouched
  | priceNotFound   -- Stage B exhausted all candidates: 404, registry untouched
deriving DecidableEq, Repr

/-- The registry-affecting core of `app.py get_stock_price` (lines 424-493).
The two outward HTTP probes are arguments: `screenerName` is the company
name Stage A recovered (with its profile `screenerUrl`), and `kotakProbe`
is what `find_working_kotak_url` returned (`price text, working URL`).
The quote fetch on the known/merged paths does not touch the registry and
is omitted. -/
def get_stock_price_step (reg : Registry) (companyParam : String)
    (screenerName : Option String) (screenerUrl : String)
    (kotakProbe : Option (String × String)) : Registry × ResolveOutcome :=
  let ticker := removeSpaces (pyUpper (pyStrip companyParam))
  match find_company_by_ticker reg ticker with
  | some _ => (reg, ResolveOutcome.known)
  | none =>
    match screenerName with
    | none => (reg, ResolveOutcome.companyNotFound)
    | some company_name =>
      match find_company_by_ticker reg (pyUpper (removeSpaces company_name)) with
      | some existing =>
        let tickers := existing.tickers ++ [ticker]
        let screener_urls := upsertAssoc existing.screener_urls ticker screenerUrl
        (get_or_create_company reg company_name tickers screener_urls existing.kotak_url,
          ResolveOutcome.merged)
      | none =>
        match kotakProbe with
        | none => (reg, ResolveOutcome.priceNotFound)
        | some (kotak_price, kotak_url) =>
          if kotak_price = "" then (reg, ResolveOutcome.priceNotFound)
          else
            (get_or_create_company reg company_name [ticker] [(ticker, screenerUrl)] kotak_url,
              ResolveOutcome.created)

/-! ## Quarterly-results parser (`scraper.py _parse_quarterly_results`) -/

/-- One `tbody` row of the quarters data table: whether its class list
contains `font-size-14` (the PDF-links row the parser skips) and the
stripped texts of its `td` cells. -/
structure QRow where
  isFootnoteRow : Bool
  cells : List String
deriving DecidableEq, Repr

/-- The quarters data table once section, table, thead and tbody were all
found (when any of them is missing the source returns `None` before
extracting anything): the `th` texts of the header row and the body rows. -/
structure QTable where
  headerCells : List String
  bodyRows : List QRow
deriving DecidableEq, Repr

/-- The dict `_parse_quarterly_results` builds. -/
structure QuarterlyData where
  headers : List String
  metrics : List (String × List String)
deriving DecidableEq, Repr

/-- `re.sub(r'\s*\+\s*$', '', metric_name)`: strip one trailing `+`-expander
together with the whitespace around it; a name with no trailing `+` is
unchanged. -/
def cleanMetricName (s : String) : String :=
  match s.toList.reverse.dropWhile isPySpace with
  | '+' :: rest => String.mk ((rest.dropWhile isPySpace).reverse)
  | _ => s

/-- The per-row step of `_parse_quarterly_results`: skip the PDF-links row
and rows shorter than two cells; otherwise record the metric `cells[0]`
(cleaned) with values `cells[1 : numHeaders+1]`; a repeated metric name
overwrites (dict assignment). -/
def quarterlyRowStep (numHeaders : Nat) (acc : List (String × List String))
    (row : QRow) : List (String × List String) :=
  if row.isFootnoteRow then acc
  else if row.cells.length < 2 then acc
  else
    let name := cleanMetricName (row.cells.headD "")
    let values := (row.cells.drop 1).take numHeaders
    upsertAssoc acc name values

/-- `scraper.py _parse_quarterly_results` on a located table: headers are
the header cells minus the first (row-label) column, empty labels skipped;
each body row contributes through `quarterlyRowStep`. -/
def parse_quarterly_results (t : QTable) : QuarterlyData :=
  let headers := (t.headerCells.drop 1).filter (fun h => h ≠ "")
  ⟨headers, t.bodyRows.foldl (quarterlyRowStep headers.length) []⟩

/-! ## Session-Based Financial Scraper control flow (`scraper.py`)

`scrape_screener_ratios` and `scrape_quarterly_results` share one body
shape: driver-path check, `driver = None`, `try:` (launch, login, verify
URL, navigate + wait for the anchor, parse) with a blanket `except` turning
any raise into `None`, and `finally: if driver: driver.quit()`.  The
environment below fixes the outcome of every outward interaction of one
call; the run function replays the source's control flow over it. -/

/-- One ratio entry of the ratios payload
(`scraper.py _parse_ratios_from_page`). -/
structure RatioEntry where
  full_value : String
  number_value : String
  unit : String
  source_type : String
deriving DecidableEq, Repr

/-- The ratios payload: metric name → entry, in insertion order. -/
abbrev RatiosData := List (String × RatioEntry)

/-- The outward interactions of one scraper call.  `driverFileExists` is the
`os.path.exists(EDGE_DRIVER_PATH)` check; `driverInitOk` is whether
`webdriver.Edge(...)` returns (rather than raises); `loginStepsOk` is
whether the login waits and field lookups all succeed; `postLoginUrl` is
`driver.current_url` after the submit and settle sleep; `navOk` is whether
the company page loads and the content anchor appears within the wait
timeout; `parseResult` is what the kind-specific parser returned. -/
structure ScrapeEnv (α : Type) where
  driverFileExists : Bool
  driverInitOk : Bool
  loginStepsOk : Bool
  postLoginUrl : String
  navOk : Bool
  parseResult : Option α
deriving DecidableEq, Repr

/-- The observable outcome of one scraper call: the returned value, whether
a browser session was created, and whether the `finally` block invoked
`driver.quit()`. -/
structure ScrapeExec (α : Type) where
  result : Option α
  sessionCreated : Bool
  sessionClosed : Bool
deriving DecidableEq, Repr

/-- The shared control flow of `scrape_screener_ratios` /
`scrape_quarterly_results`: every exit that happens after
`webdriver.Edge(...)` returned goes through `finally: if driver:
driver.quit()`; the missing-driver return and a raise inside
`webdriver.Edge` itself leave `driver` as `None`, so nothing is closed and
no session existed. -/
def scrape_session_run {α : Type} (env : ScrapeEnv α) : ScrapeExec α :=
  if !env.driverFileExists then ⟨none, false, false⟩
  else if !env.driverInitOk then ⟨none, false, false⟩
  else
    let result :=
      if !env.loginStepsOk then none
      else if strHasSub env.postLoginUrl "/login/" then none
      else if !env.navOk then none
      else env.parseResult
    ⟨result, true, true⟩

/-- `scraper.py scrape_screener_ratios(ticker)` control flow; the parse step
returns the ratios payload (`None` when the ratios section is missing or
empty — the debug-page save is a side effect outside the state). -/
def scrape_screener_ratios_run (env : ScrapeEnv RatiosData) : ScrapeExec RatiosData :=
  scrape_session_run env

/-- `scraper.py scrape_quarterly_results(ticker)` control flow; the parse
step returns `parse_quarterly_results` of the located table, `none` when
the quarters section or its data table is missing. -/
def scrape_quarterly_results_run (env : ScrapeEnv QuarterlyData) : ScrapeExec QuarterlyData :=
  scrape_session_run env

/-! ## The global selenium lock (`scraper.py selenium_lock`)

Both scraper entry points execute their whole body inside
`with selenium_lock:`; the browser session is launched after the lock is
taken and torn down (the `finally`) before it is released.  The interleaved
execution of any number of such calls, one per thread, is the transition
system below. -/

/-- Where one scraper call stands.  `holdingLock` covers everything inside
`with selenium_lock:` before `webdriver.Edge` returns; `inSession` is the
span in which a browser session exists; `sessionClosed` is after the
`finally` teardown but still inside the `with` block. -/
inductive SessionPhase where
  | notStarted
  | holdingLock
  | inSession
  | sessionClosed
  | finished
deriving DecidableEq, Repr

/-- Global state: who holds `selenium_lock`, and each thread's phase. -/
structure LockState where
  lockOwner : Option Nat
  phase : Nat → SessionPhase

/-- All threads about to call a scraper function; lock free. -/
def initLockState : LockState :=
  ⟨none, fun _ => SessionPhase.notStarted⟩

/-- The atomic steps of the two scraper functions, as guarded transitions.
`acquire` is the entry of `with selenium_lock:` (blocks unless free);
`openSession` is `webdriver.Edge(...)` returning; `skipSession` covers the
paths that never launch a browser (missing driver file, raise inside
`webdriver.Edge`); `closeSession` is the `finally` teardown; `release` is
the exit of the `with` block. -/
inductive LockStep : LockState → LockState → Prop
  | acquire (t : Nat) (s : LockState) :
      s.lockOwner = none → s.phase t = SessionPhase.notStarted →
      LockStep s ⟨some t, Function.update s.phase t SessionPhase.holdingLock⟩
  | openSession (t : Nat) (s : LockState) :
      s.phase t = SessionPhase.holdingLock →
      LockStep s ⟨s.lockOwner, Function.update s.phase t SessionPhase.inSession⟩
  | skipSession (t : Nat) (s : LockState) :
      s.phase t = SessionPhase.holdingLock →
      LockStep s ⟨s.lockOwner, Function.update s.phase t SessionPhase.sessionClosed⟩
  | closeSession (t : Nat) (s : LockState) :
      s.phase t = SessionPhase.inSession →
      LockStep s ⟨s.lockOwner, Function.update s.phase t SessionPhase.sessionClosed⟩
  | release (t : Nat) (s : LockState) :
      s.lockOwner = some t → s.phase t = SessionPhase.sessionClosed →
      LockStep s ⟨none, Function.update s.phase t SessionPhase.finished⟩

/-- States reachable from the initial state by interleaved scraper calls. -/
def LockReachable (s : LockState) : Prop :=
  Relation.ReflTransGen LockStep initLockState s

/-- Thread `t` has an automated browser session active in state `s`. -/
def sessionActive (s : LockState) (t : Nat) : Prop :=
  s.phase t = SessionPhase.inSession

/-- The inductive invariant: any thread inside the `with` block owns the
lock. -/
def LockInv (s : LockState) : Prop :=
  ∀ t : Nat,
    (s.phase t = SessionPhase.holdingLock ∨ s.phase t = SessionPhase.inSession ∨
      s.phase t = SessionPhase.sessionClosed) →
    s.lockOwner = some t

/-! ## `/api/stock-ratios` route flow (`app.py get_stock_ratios`) -/

/-- What `/api/stock-ratios/<ticker>` responded with. -/
inductive RatiosResult (α : Type) where
  | cachedHit : α → RatiosResult α    -- served from the database cache
  | freshScrape : α → RatiosResult α  -- scraped now (cached: False)
  | failure : RatiosResult α          -- 404 Could not fetch ratios
deriving DecidableEq, Repr

/-- `app.py get_stock_ratios(ticker)` for an authenticated user: uppercase
the ticker, consult the cache, otherwise scrape (the scraper's outcome is
the `scrape` argument) and save on success.  Returns the response, the
database state afterwards, and whether a scrape was triggered. -/
def get_stock_ratios_run {α β : Type} (db : DB α β) (ticker : String)
    (user_id : Nat) (today updated_time : String) (scrape : Option α) :
    RatiosResult α × DB α β × Bool :=
  let t := pyUpper ticker
  match get_cached_ratios_by_ticker db t user_id today with
  | some d => (RatiosResult.cachedHit d, db, false)
  | none =>
    match scrape with
    | some freshData =>
      (RatiosResult.freshScrape freshData,
        save_ratios_to_cache_by_ticker db t freshData user_id today updated_time, true)
    | none => (RatiosResult.failure, db, true)

/-! ## Helper lemmas -/

theorem find?_map_upsert {α : Type} (k : String) (v : α) (t : List (String × α))
    (h : t.any (fun p => p.1 == k) = true) :
    (t.map (fun p => if p.1 == k then (k, v) else p)).find? (fun p => p.1 == k) =
      some (k, v) := by
  induction t with
  | nil => simp at h
  | cons p ps ih =>
    by_cases hp : (p.1 == k) = true
    · simp only [List.map_cons, hp, if_true]
      rw [List.find?_cons_of_pos _ (by simp)]
    · simp only [List.any_cons, Bool.or_eq_true] at h
      rcases h with h | h
      · exact absurd h hp
      · simp only [List.map_cons, hp, if_false, Bool.false_eq_true]
        rw [List.find?_cons_of_neg _ (by simpa using hp)]
        exact ih h

theorem find?_append_upsert {α : Type} (k : String) (v : α) (t : List (String × α))
    (h : t.any (fun p => p.1 == k) = false) :
    (t ++ [(k, v)]).find? (fun p => p.1 == k) = some (k, v) := by
  induction t with
  | nil => simp
  | cons p ps ih =>
    simp only [List.any_cons, Bool.or_eq_false_iff] at h
    rw [List.cons_append, List.find?_cons_of_neg _ (by simp [h.1])]
    exact ih h.2

/-- Looking up the key just written by `upsertAssoc` yields the new value. -/
theorem lookupAssoc_upsertAssoc_self {α : Type} (t : List (String × α))
    (k : String) (v : α) :
    lookupAssoc (upsertAssoc t k v) k = some v := by
  unfold lookupAssoc upsertAssoc
  by_cases h : (t.any (fun p => p.1 == k)) = true
  · rw [if_pos h, find?_map_upsert k v t h]; rfl
  · rw [if_neg h, find?_append_upsert k v t (Bool.eq_false_iff.mpr h)]; rfl

/-- A pointwise property survives an `upsertAssoc` whose new pair has it. -/
theorem mem_upsertAssoc {α : Type} {P : String × α → Prop}
    {t : List (String × α)} {k : String} {v : α}
    (ht : ∀ p ∈ t, P p) (hv : P (k, v)) :
    ∀ p ∈ upsertAssoc t k v, P p := by
  intro p hp
  unfold upsertAssoc at hp
  split at hp
  · rcases List.mem_map.mp hp with ⟨q, hq, hqe⟩
    by_cases hk : q.1 == k
    · rw [if_pos hk] at hqe; exact hqe ▸ hv
    · rw [if_neg hk] at hqe; exact hqe ▸ ht q hq
  · rcases List.mem_append.mp hp with h | h
    · exact ht p h
    · simp only [List.mem_singleton] at h; exact h ▸ hv

/-- A pointwise property of all accumulated metrics is preserved along the
body-row fold of `_parse_quarterly_results`, provided every contributing
row produces a pair with the property. -/
theorem foldl_quarterlyRowStep_pred {n : Nat} {P : String × List String → Prop} :
    ∀ (rows : List QRow) (acc : List (String × List String)),
      (∀ p ∈ acc, P p) →
      (∀ row ∈ rows, row.isFootnoteRow = false → 2 ≤ row.cells.length →
        P (cleanMetricName (row.cells.headD ""), (row.cells.drop 1).take n)) →
      ∀ p ∈ rows.foldl (quarterlyRowStep n) acc, P p := by
  intro rows
  induction rows with
  | nil => intro acc hacc _ p hp; exact hacc p (by simpa using hp)
  | cons r rs ih =>
    intro acc hacc hrows p hp
    rw [List.foldl_cons] at hp
    refine ih (quarterlyRowStep n acc r) ?_ (fun row hrow => hrows row (by simp [hrow])) p hp
    intro q hq
    unfold quarterlyRowStep at hq
    split at hq
    · exact hacc q hq
    · split at hq
      · exact hacc q hq
      · refine mem_upsertAssoc hacc ?_ q hq
        next hfoot hshort =>
          exact hrows r (by simp) (by simpa using hfoot) (by omega)

/-- When the driver file exists, the driver launches and the post-submit URL
still contains the login path, the call returns `None` with the session
created and torn down. -/
theorem scrape_session_run_login_page {α : Type} (env : ScrapeEnv α)
    (h1 : env.driverFileExists = true) (h2 : env.driverInitOk = true)
    (h3 : strHasSub env.postLoginUrl "/login/" = true) :
    scrape_session_run env = ⟨none, true, true⟩ := by
  unfold scrape_session_run
  rw [h1, h2]
  cases henv : env.loginStepsOk <;> simp [h3]

/-- The invariant holds initially: no thread is inside the `with` block. -/
theorem lockInv_init : LockInv initLockState := by
  intro t h
  simp [initLockState] at h

/-- The invariant is preserved by every step of every scraper call. -/
theorem lockInv_step {s1 s2 : LockState} (h : LockStep s1 s2)
    (inv : LockInv s1) : LockInv s2 := by
  cases h with
  | acquire t s howner hphase =>
    intro u hu
    by_cases hut : u = t
    · subst hut; rfl
    · simp only [Function.update_noteq hut] at hu
      exact absurd (inv u hu) (by simp [howner])
  | openSession t s hphase =>
    intro u hu
    by_cases hut : u = t
    · subst hut
      exact inv u (Or.inl hphase)
    · simp only [Function.update_noteq hut] at hu
      exact inv u hu
  | skipSession t s hphase =>
    intro u hu
    by_cases hut : u = t
    · subst hut
      exact inv u (Or.inl hphase)
    · simp only [Function.update_noteq hut] at hu
      exact inv u hu
  | closeSession t s hphase =>
    intro u hu
    by_cases hut : u = t
    · subst hut
      exact inv u (Or.inr (Or.inl hphase))
    · simp only [Function.update_noteq hut] at hu
      exact inv u hu
  | release t s howner hphase =>
    intro u hu
    by_cases hut : u = t
    · subst hut
      simp [Function.update_same] at hu
    · simp only [Function.update_noteq hut] at hu
      have := inv u hu
      rw [howner] at this
      exact absurd (Option.some.inj this).symm hut

/-- The invariant holds in every reachable state. -/
theorem lockInv_reachable (s : LockState) (h : LockReachable s) : LockInv s := by
  induction h with
  | refl => exact lockInv_init
  | tail _ hbc ih => exact lockInv_step hbc ih

/-- A reachable state with one thread mid-session, used as the witness
input: thread 0 acquired the lock and launched the browser. -/
def lockWitnessState : LockState :=
  ⟨some 0, Function.update (Function.update (fun _ => SessionPhase.notStarted) 0
    SessionPhase.holdingLock) 0 SessionPhase.inSession⟩

/-! ## The claimed properties -/

/-- C3: claimed — `parse_price` never raises and returns `0` for every
string without digits.  Refuted at the failing input `"."`: cleaning keeps
the dot, the string is nonempty, and `float(".")` raises `ValueError`; the
surrounding cases the claim lists (`None`, empty string, digitless string
that cleans to empty, numeric pass-through) do behave as claimed. -/
theorem parse_price_dot_raises :
    parse_price (PyVal.str ".") = Except.error () ∧
    parse_price (PyVal.str "1.2.3") = Except.error () ∧
    parse_price PyVal.none = Except.ok 0 ∧
    parse_price (PyVal.str "") = Except.ok 0 ∧
    parse_price (PyVal.str "abc") = Except.ok 0 ∧
    parse_price (PyVal.num (7 / 2)) = Except.ok (7 / 2) :=
  ⟨rfl, rfl, rfl, rfl, rfl, rfl⟩

/-- C1: claimed — a Company's stored ticker list is the union of all tickers
ever resolved to its name.  The code violates this: resolving a second
ticker for the same multi-word company name misses the merge check (which
looks the space-stripped *name* up as a ticker), reaches the create-new
branch, and `get_or_create_company` then overwrites the existing row's
tickers wholesale, losing the first alias. -/
theorem resolve_second_ticker_drops_alias :
    (get_stock_price_step [] "TCS"
        (some "Tata Consultancy Services Ltd") "url1" (some ("3900", "kurl1"))).1 =
      [⟨"Tata Consultancy Services Ltd", ["TCS"], [("TCS", "url1")], "kurl1"⟩] ∧
    (get_stock_price_step
        [⟨"Tata Consultancy Services Ltd", ["TCS"], [("TCS", "url1")], "kurl1"⟩]
        "TCSNS" (some "Tata Consultancy Services Ltd") "url2" (some ("3900", "kurl2"))) =
      ([⟨"Tata Consultancy Services Ltd", ["TCSNS"], [("TCSNS", "url2")], "kurl2"⟩],
        ResolveOutcome.created) ∧
    find_company_by_ticker
      [⟨"Tata Consultancy Services Ltd", ["TCSNS"], [("TCSNS", "url2")], "kurl2"⟩]
      "TCS" = none := by
  refine ⟨?_, ?_, ?_⟩ <;> decide

/-- C2 counterexample: a body row with fewer cells than there are period
headers produces a metric whose value list is shorter than the header list,
so the claimed invariant fails for tables with short rows. -/
theorem quarterly_short_row_counterexample :
    (parse_quarterly_results ⟨["", "Jun 2025", "Sep 2025"], [⟨false, ["Sales", "100"]⟩]⟩).headers =
      ["Jun 2025", "Sep 2025"] ∧
    (parse_quarterly_results ⟨["", "Jun 2025", "Sep 2025"], [⟨false, ["Sales", "100"]⟩]⟩).metrics =
      [("Sales", ["100"])] ∧
    ¬ (∀ p ∈ (parse_quarterly_results ⟨["", "Jun 2025", "Sep 2025"],
          [⟨false, ["Sales", "100"]⟩]⟩).metrics,
        p.2.length = (parse_quarterly_results ⟨["", "Jun 2025", "Sep 2025"],
          [⟨false, ["Sales", "100"]⟩]⟩).headers.length) := by
  refine ⟨?_, ?_, ?_⟩ <;> decide

/-- C2 amended: every metric's value list has at most one value per header
(`cells[1 : len(headers)+1]` is a slice, so it truncates silently), and has
exactly one value per header whenever every contributing body row carries at
least `len(headers) + 1` cells. -/
theorem quarterly_metric_value_lengths (t : QTable) :
    (∀ p ∈ (parse_quarterly_results t).metrics,
        p.2.length ≤ (parse_quarterly_results t).headers.length) ∧
    ((∀ row ∈ t.bodyRows, row.isFootnoteRow = false →
        (parse_quarterly_results t).headers.length + 1 ≤ row.cells.length) →
      ∀ p ∈ (parse_quarterly_results t).metrics,
        p.2.length = (parse_quarterly_results t).headers.length) := by
  have hhead : (parse_quarterly_results t).headers =
      (t.headerCells.drop 1).filter (fun h => h ≠ "") := rfl
  have hmet : (parse_quarterly_results t).metrics =
      t.bodyRows.foldl
        (quarterlyRowStep ((t.headerCells.drop 1).filter (fun h => h ≠ "")).length) [] := rfl
  rw [hhead, hmet]
  constructor
  · refine foldl_quarterlyRowStep_pred t.bodyRows [] (by simp) ?_
    intro row _ _ _
    simp only [List.length_take]
    exact Nat.min_le_left _ _
  · intro hrows
    refine foldl_quarterlyRowStep_pred t.bodyRows [] (by simp) ?_
    intro row hrow hfoot _
    have hlen := hrows row hrow hfoot
    simp only [List.length_take, List.length_drop]
    omega

/-- C2 amended, witness: on a table whose single body row has one cell per
header plus the label cell, the metric has exactly one value per header. -/
theorem quarterly_metric_value_lengths_witness :
    ∀ p ∈ (parse_quarterly_results ⟨["", "Jun 2025"], [⟨false, ["Sales", "100"]⟩]⟩).metrics,
      p.2.length =
        (parse_quarterly_results ⟨["", "Jun 2025"], [⟨false, ["Sales", "100"]⟩]⟩).headers.length :=
  (quarterly_metric_value_lengths ⟨["", "Jun 2025"], [⟨false, ["Sales", "100"]⟩]⟩).2
    (by decide)

/-- C4: the freshness cache serves a stored ratios payload iff the stored
date equals today's date; a get right after a put with today's date is a
hit; a hit never reflects an entry dated other than today. -/
theorem ratios_cache_freshness {α β : Type} (db : DB α β) (hld : Holding)
    (ticker : String) (user_id : Nat) (today updated_time : String) (payload : α)
    (hh : find_existing_holding_by_ticker db ticker user_id = some hld) :
    (∀ d : α, get_cached_ratios_by_ticker db ticker user_id today = some d ↔
      ∃ e : CacheEntry α, get_ratios_cache db hld.id = some e ∧
        e.date = today ∧ e.data = d) ∧
    get_cached_ratios_by_ticker
      (save_ratios_to_cache_by_ticker db ticker payload user_id today updated_time)
      ticker user_id today = some payload := by
  constructor
  · intro d
    cases hgc : get_ratios_cache db hld.id with
    | none =>
      unfold get_cached_ratios_by_ticker
      rw [hh]
      simp [hgc]
    | some e =>
      unfold get_cached_ratios_by_ticker is_data_fresh
      rw [hh]
      by_cases hd : e.date = today
      · simp [hgc, hd]
      · simp [hgc, hd]
  · have hfind : find_existing_holding_by_ticker
        { db with ratios_cache :=
            upsertAssoc db.ratios_cache hld.id ⟨user_id, payload, today, updated_time⟩ }
        ticker user_id = some hld := hh
    have hlook : get_ratios_cache
        { db with ratios_cache :=
            upsertAssoc db.ratios_cache hld.id ⟨user_id, payload, today, updated_time⟩ }
        hld.id = some ⟨user_id, payload, today, updated_time⟩ :=
      lookupAssoc_upsertAssoc_self db.ratios_cache hld.id _
    have hsave : save_ratios_to_cache_by_ticker db ticker payload user_id today updated_time =
        { db with ratios_cache :=
            upsertAssoc db.ratios_cache hld.id ⟨user_id, payload, today, updated_time⟩ } := by
      unfold save_ratios_to_cache_by_ticker
      rw [hh]
      rfl
    rw [hsave]
    unfold get_cached_ratios_by_ticker is_data_fresh
    simp [hfind, hlook]

/-- C4 witness: one user, one holding for ticker `tcs`/`TCS`, empty caches;
after a put of payload `5` with today's date the get is a hit. -/
theorem ratios_cache_freshness_witness :
    get_cached_ratios_by_ticker
      (save_ratios_to_cache_by_ticker
        (⟨[⟨"h1", 1, "tcs", "TCS"⟩], [], []⟩ : DB Nat Nat)
        "TCS" 5 1 "2026-10-12" "2026-10-12 09:00:00")
      "TCS" 1 "2026-10-12" = some 5 :=
  (ratios_cache_freshness (⟨[⟨"h1", 1, "tcs", "TCS"⟩], [], []⟩ : DB Nat Nat)
    ⟨"h1", 1, "tcs", "TCS"⟩ "TCS" 1 "2026-10-12" "2026-10-12 09:00:00" 5 (by decide)).2

/-- C5: Stage B candidate generation is deterministic (a pure function of
the name), follows the claimed order — for `"Tata Consultancy Services Ltd"`
the full slug comes first, the suffix-stripped slug second, and the `bse-`
copies after all plain candidates — and never exceeds 8 candidates. -/
theorem kotak_url_variation_order :
    all_kotak_variations "Tata Consultancy Services Ltd" =
      ["tata-consultancy-services-ltd", "tata-consultancy-services",
        "bse-tata-consultancy-services-ltd", "bse-tata-consultancy-services"] ∧
    (∀ name : String, (all_kotak_variations name).length ≤ 8) ∧
    (∀ name : String, all_kotak_variations name =
      create_base_url_variations name ++
        (create_base_url_variations name).map (fun v => "bse-" ++ v)) := by
  refine ⟨by decide, ?_, fun name => rfl⟩
  intro name
  unfold all_kotak_variations
  rw [List.length_append, List.length_map]
  have h4 : (create_base_url_variations name).length ≤ 4 := by
    simp only [create_base_url_variations]
    split_ifs <;> simp
  omega

/-- C6 counterexample: the row-label match of the previous-close scan is the
Python `in` operator, which is case-sensitive; on a document whose label is
upper-case the source finds nothing while the claimed case-insensitive scan
extracts the value, so the claim is false on this input. -/
theorem prev_close_case_counterexample :
    extract_previous_close [⟨some "PREV. CLOSE", some "₹123.45"⟩] = none ∧
    extract_previous_close_ci [⟨some "PREV. CLOSE", some "₹123.45"⟩] = some "123.45" ∧
    extract_previous_close [⟨some "PREV. CLOSE", some "₹123.45"⟩] ≠
      extract_previous_close_ci [⟨some "PREV. CLOSE", some "₹123.45"⟩] := by
  refine ⟨?_, ?_, ?_⟩ <;> decide

/-- C6 amended: the scan finds the first row whose label cell contains
`'Prev. Close'` as a *case-sensitive* substring, extracts its value cell
reduced to digits and dots (empty ↦ `"0"`, missing value cell ↦ absent),
and yields no value — not an error — when no label matches. -/
theorem prev_close_scan_is_first_case_sensitive_match (rows : List KRow) :
    extract_previous_close rows = extract_previous_close_first_match rows := by
  induction rows with
  | nil => rfl
  | cons r rest ih =>
    obtain ⟨rlabel, rvalue⟩ := r
    cases rlabel with
    | none =>
      have hstep : extract_previous_close (⟨none, rvalue⟩ :: rest) =
          extract_previous_close rest := rfl
      rw [hstep]
      unfold extract_previous_close_first_match
      rw [List.find?_cons_of_neg _
        (show ¬ prevCloseRowPred ⟨none, rvalue⟩ = true by simp [prevCloseRowPred])]
      exact ih
    | some lbl =>
      have hstep : extract_previous_close (⟨some lbl, rvalue⟩ :: rest) =
          (if strHasSub lbl "Prev. Close" then
            (match rvalue with
              | some v =>
                let cleaned := cleanNumText v
                some (if cleaned = "" then "0" else cleaned)
              | none => none)
          else extract_previous_close rest) := rfl
      rw [hstep]
      by_cases hm : strHasSub lbl "Prev. Close" = true
      · rw [if_pos hm]
        unfold extract_previous_close_first_match
        rw [List.find?_cons_of_pos _
          (show prevCloseRowPred ⟨some lbl, rvalue⟩ = true from hm)]
        cases rvalue <;> rfl
      · rw [if_neg hm]
        unfold extract_previous_close_first_match
        rw [List.find?_cons_of_neg _
          (show ¬ prevCloseRowPred ⟨some lbl, rvalue⟩ = true from hm)]
        exact ih

/-- C7: on any non-success HTTP status and on any raised network error, the
quote fetch returns `None` — no partial quote dict and no propagated
exception. -/
theorem fetch_quote_failure_is_none (doc : KDoc) (status : Nat)
    (h : status ≠ 200) :
    get_kotak_price_from_url (Except.ok (status, doc)) = none ∧
    get_kotak_price_from_url (Except.error ()) = none := by
  constructor
  · unfold get_kotak_price_from_url
    simp [h]
  · rfl

/-- C7 witness: HTTP 503 on a page that would otherwise parse fully. -/
theorem fetch_quote_failure_is_none_witness :
    get_kotak_price_from_url
      (Except.ok (503, ⟨some "₹100.50", some "+1.20 (0.5%)",
        [⟨some "Prev. Close", some "₹99.30"⟩]⟩)) = none ∧
    get_kotak_price_from_url (Except.error ()) = none :=
  fetch_quote_failure_is_none
    ⟨some "₹100.50", some "+1.20 (0.5%)", [⟨some "Prev. Close", some "₹99.30"⟩]⟩
    503 (by decide)

/-- C8: whenever a browser session was created, the `finally` block tears it
down before the call returns, on every exit path of both scraper entry
points; in particular a post-login URL still containing `/login/` yields a
failure value (`None`) with the session created and torn down. -/
theorem scrape_session_always_torn_down :
    (∀ (α : Type) (env : ScrapeEnv α),
      (scrape_session_run env).sessionCreated = true →
      (scrape_session_run env).sessionClosed = true) ∧
    (∀ env : ScrapeEnv RatiosData,
      env.driverFileExists = true → env.driverInitOk = true →
      strHasSub env.postLoginUrl "/login/" = true →
      scrape_screener_ratios_run env = ⟨none, true, true⟩) ∧
    (∀ env : ScrapeEnv QuarterlyData,
      env.driverFileExists = true → env.driverInitOk = true →
      strHasSub env.postLoginUrl "/login/" = true →
      scrape_quarterly_results_run env = ⟨none, true, true⟩) := by
  refine ⟨?_, ?_, ?_⟩
  · intro α env h
    unfold scrape_session_run at h ⊢
    by_cases h1 : env.driverFileExists
    · by_cases h2 : env.driverInitOk
      · simp [h1, h2]
      · simp [h1, h2] at h
    · simp [h1] at h
  · intro env h1 h2 h3
    exact scrape_session_run_login_page env h1 h2 h3
  · intro env h1 h2 h3
    exact scrape_session_run_login_page env h1 h2 h3

/-- C8 witness: concrete environments — a ratios call and a quarterly call
stuck on the login page, and a generic call that reached the parser. -/
theorem scrape_session_always_torn_down_witness :
    scrape_screener_ratios_run
      ⟨true, true, true, "https://www.screener.in/login/", true, none⟩ =
      ⟨none, true, true⟩ ∧
    scrape_quarterly_results_run
      ⟨true, true, true, "https://www.screener.in/login/", true, none⟩ =
      ⟨none, true, true⟩ ∧
    (scrape_session_run
      (⟨true, true, true, "https://www.screener.in/company/TCS/consolidated/",
        true, some 3⟩ : ScrapeEnv Nat)).sessionClosed = true :=
  ⟨scrape_session_always_torn_down.2.1 _ rfl rfl (by decide),
   scrape_session_always_torn_down.2.2 _ rfl rfl (by decide),
   scrape_session_always_torn_down.1 Nat _ rfl⟩

/-- C9: in every state reachable by interleaved scraper calls, at most one
thread has an automated browser session active — the shared
`selenium_lock`, held from before the browser launch until after the
teardown, serializes the Session-Based Financial Scraper system-wide. -/
theorem selenium_lock_serializes (s : LockState) (hs : LockReachable s)
    (t1 t2 : Nat) (h1 : sessionActive s t1) (h2 : sessionActive s t2) :
    t1 = t2 := by
  have inv := lockInv_reachable s hs
  have o1 := inv t1 (Or.inr (Or.inl h1))
  have o2 := inv t2 (Or.inr (Or.inl h2))
  rw [o1] at o2
  exact Option.some.inj o2

/-- C9 witness: the state in which thread 0 acquired the lock and launched
the browser is reachable, thread 0 is mid-session there, and the theorem
instantiated at it gives `0 = 0`. -/
theorem selenium_lock_serializes_witness :
    LockReachable lockWitnessState ∧ sessionActive lockWitnessState 0 ∧
      (0 : Nat) = 0 := by
  have step1 : LockStep initLockState
      ⟨some 0, Function.update initLockState.phase 0 SessionPhase.holdingLock⟩ :=
    LockStep.acquire 0 initLockState rfl rfl
  have step2 : LockStep
      ⟨some 0, Function.update initLockState.phase 0 SessionPhase.holdingLock⟩
      lockWitnessState :=
    LockStep.openSession 0
      ⟨some 0, Function.update initLockState.phase 0 SessionPhase.holdingLock⟩
      (by simp [initLockState])
  have hreach : LockReachable lockWitnessState :=
    Relation.ReflTransGen.tail (Relation.ReflTransGen.tail
      Relation.ReflTransGen.refl step1) step2
  have hact : sessionActive lockWitnessState 0 := by
    simp [sessionActive, lockWitnessState]
  exact ⟨hreach, hact, selenium_lock_serializes lockWitnessState hreach 0 0 hact hact⟩

/-- C10: when the user has no holding for the ticker, the cache-get helpers
return `None`, the cache-save helpers leave the database unchanged, and the
ratios route scrapes, returns the fresh data uncached, and leaves the
database as it was — so an identical follow-up request scrapes again. -/
theorem unheld_ticker_never_cached {α β : Type} (db : DB α β) (ticker : String)
    (user_id : Nat) (today updated_time : String) (freshData : α)
    (h : find_existing_holding_by_ticker db (pyUpper ticker) user_id = none) :
    get_cached_ratios_by_ticker db (pyUpper ticker) user_id today = none ∧
    get_cached_quarterly_by_ticker db (pyUpper ticker) user_id today = none ∧
    save_ratios_to_cache_by_ticker db (pyUpper ticker) freshData user_id today
      updated_time = db ∧
    (∀ qd : β, save_quarterly_to_cache_by_ticker db (pyUpper ticker) qd user_id
      today updated_time = db) ∧
    get_stock_ratios_run db ticker user_id today updated_time (some freshData) =
      (RatiosResult.freshScrape freshData, db, true) ∧
    (get_stock_ratios_run
        (get_stock_ratios_run db ticker user_id today updated_time
          (some freshData)).2.1
        ticker user_id today updated_time (some freshData)).2.2 = true := by
  have hcr : get_cached_ratios_by_ticker db (pyUpper ticker) user_id today = none := by
    unfold get_cached_ratios_by_ticker
    rw [h]
  have hcq : get_cached_quarterly_by_ticker db (pyUpper ticker) user_id today = none := by
    unfold get_cached_quarterly_by_ticker
    rw [h]
  have hsr : save_ratios_to_cache_by_ticker db (pyUpper ticker) freshData user_id
      today updated_time = db := by
    unfold save_ratios_to_cache_by_ticker
    rw [h]
  have hrun : get_stock_ratios_run db ticker user_id today updated_time
      (some freshData) = (RatiosResult.freshScrape freshData, db, true) := by
    unfold get_stock_ratios_run
    simp [hcr, hsr]
  have hstate : (get_stock_ratios_run db ticker user_id today updated_time
      (some freshData)).2.1 = db := by rw [hrun]
  refine ⟨hcr, hcq, hsr, ?_, hrun, ?_⟩
  · intro qd
    unfold save_quarterly_to_cache_by_ticker
    rw [h]
  · rw [hstate, hrun]

/-- C10 witness: an empty database (no holdings at all) for user 1. -/
theorem unheld_ticker_never_cached_witness :
    get_cached_ratios_by_ticker (⟨[], [], []⟩ : DB Nat Nat) (pyUpper "tcs") 1
      "2026-10-12" = none ∧
    get_stock_ratios_run (⟨[], [], []⟩ : DB Nat Nat) "tcs" 1 "2026-10-12"
      "2026-10-12 09:00:00" (some 9) =
      (RatiosResult.freshScrape 9, (⟨[], [], []⟩ : DB Nat Nat), true) :=
  ⟨(unheld_ticker_never_cached (⟨[], [], []⟩ : DB Nat Nat) "tcs" 1 "2026-10-12"
      "2026-10-12 09:00:00" 9 rfl).1,
   (unheld_ticker_never_cached (⟨[], [], []⟩ : DB Nat Nat) "tcs" 1 "2026-10-12"
      "2026-10-12 09:00:00" 9 rfl).2.2.2.2.1⟩

end StockDash
